import Mathlib

/-!
Shallow embedding of the NPMRDS travel-time reliability script (`src/main.py`).

Dataframes are modelled as lists of records; missing values (`NaN`) as `none`;
float measurements as exact rationals.  `np.percentile(·, method='closest_observation')`
is embedded from its documented definition (Hyndman & Fan method 3), with the
ascending sort modelled by insertion sort (the sorted list of rationals is unique).
Pandas `NaN` arithmetic (`NaN / x`, `x / NaN`) and non-finite division results
(`x / 0`) are both modelled as `none` ("undefined").
-/

namespace NPMRDS

/-- Time-of-day bucket (`TOD` column values of `add_hod_dow_tod_to_dataset`). -/
inductive TOD where
  | AM | MD | PM | WE | EV
deriving DecidableEq, Repr

/-- A timestamp (`DATETIME`): its hour component (0-23), its python weekday
(`dt.dayofweek`, Monday = 0 .. Sunday = 6), and an abstract remainder `stamp`
so that distinct timestamps with the same hour/weekday stay distinguishable
for the (segment, timestamp) join key. -/
structure Timestamp where
  hour : ℕ
  pyDayOfWeek : ℕ
  stamp : ℕ
deriving DecidableEq

/-- One input row after `csv_preprocessing_pipeline`: segment code, timestamp,
speed (`MPH`) and travel time (`TT_SEC`), the two measurements possibly missing. -/
structure RawRow where
  tmc_code : String
  datetime : Timestamp
  mph : Option ℚ
  tt_sec : Option ℚ
deriving DecidableEq

/-- The `DOW` column, main.py line 58: `(dt.dayofweek + 2).replace(8,1)`. -/
def dowOfPyDayOfWeek (d : ℕ) : ℕ :=
  if d + 2 = 8 then 1 else d + 2

/-- The `TOD` column, main.py lines 61-65: start from `'EV'`, then four sequential
masked overwrites (`between(a,b,inclusive='neither')` is strict on both ends). -/
def todOf (hod dow : ℕ) : TOD :=
  let t := TOD.EV
  let t := if 5 < hod ∧ hod < 10 ∧ 2 ≤ dow ∧ dow ≤ 6 then TOD.AM else t
  let t := if 9 < hod ∧ hod < 16 ∧ 2 ≤ dow ∧ dow ≤ 6 then TOD.MD else t
  let t := if 15 < hod ∧ hod < 20 ∧ 2 ≤ dow ∧ dow ≤ 6 then TOD.PM else t
  if 5 < hod ∧ hod < 20 ∧ (dow = 1 ∨ dow = 7) then TOD.WE else t

/-- A row after `add_hod_dow_tod_to_dataset`: the raw columns plus `HOD`, `DOW`, `TOD`. -/
structure TodRow where
  tmc_code : String
  datetime : Timestamp
  mph : Option ℚ
  tt_sec : Option ℚ
  hod : ℕ
  dow : ℕ
  tod : TOD
deriving DecidableEq

/-- main.py lines 52-67: add the `HOD`, `DOW` and `TOD` columns. -/
def add_hod_dow_tod_to_dataset (data : List RawRow) : List TodRow :=
  data.map fun r =>
    let hod := r.datetime.hour
    let dow := dowOfPyDayOfWeek r.datetime.pyDayOfWeek
    ⟨r.tmc_code, r.datetime, r.mph, r.tt_sec, hod, dow, todOf hod dow⟩

/-- The 0-based index of the order statistic chosen by
`np.percentile(xs, q, method='closest_observation')` for a sample of size `n`
(Hyndman & Fan method 3): with `h = n*q/100 - 1/2` and `j = ⌊h⌋`, take the
1-based rank `j` when `h = j` and `j` is even, else `j + 1`, clamped into range.
`h` is the exact fraction `t / 200` with `t = 2*n*q - 100`, so `⌊h⌋ = t.fdiv 200`
and `h = ⌊h⌋ ↔ t % 200 = 0`. -/
def closestObservationIndex (n : ℕ) (q : ℤ) : ℕ :=
  let t : ℤ := 2 * n * q - 100
  let j : ℤ := t.fdiv 200
  let k : ℤ := if t % 200 = 0 ∧ j % 2 = 0 then j else j + 1
  min (n - 1) (max (k - 1) 0).toNat

/-- Value of `np.percentile(xs, q, method='closest_observation')`: the selected order
statistic of the ascending sort of `xs` (`none` only on an empty sample). -/
def percentile_closest_observation (xs : List ℚ) (q : ℤ) : Option ℚ :=
  (xs.insertionSort (· ≤ ·))[closestObservationIndex xs.length q]?

/-- Modelled from the spec (§4.2 step 3): "selecting the rank closest to
q·(n-1)/100 with standard rounding".  The rank is `round (q*(n-1)/100)`
= `⌊q*(n-1)/100 + 1/2⌋`, written as the exact integer `(2*q*(n-1) + 100).fdiv 200`.
This definition exists only to be compared with `percentile_closest_observation`. -/
def nearest_rank_spec (xs : List ℚ) (q : ℤ) : Option ℚ :=
  (xs.insertionSort (· ≤ ·))[((2 * q * ((xs.length : ℤ) - 1) + 100).fdiv 200).toNat]?

/-- One per-group row of `data_perc` (main.py lines 76-77): the group key and the
two aggregated percentile columns `TTQ1P`, `TTQ2P`. -/
structure PercRow where
  tmc_code : String
  tod : TOD
  ttq1p : Option ℚ
  ttq2p : Option ℚ
deriving DecidableEq

/-- The non-missing `TT_SEC` values of the `(tmc_code, TOD)` group of `data`
(the rows surviving `dropna(subset=['TT_SEC'])` that carry this key). -/
def group_travel_times (data : List TodRow) (tmc : String) (tod : TOD) : List ℚ :=
  ((data.filter fun r => r.tt_sec.isSome).filter
      fun r => decide (r.tmc_code = tmc ∧ r.tod = tod)).filterMap (·.tt_sec)

/-- main.py lines 74-77: drop rows with missing `TT_SEC`, group by
`(tmc_code, TOD)`, and aggregate the `q1`-th and `q2`-th
closest-observation percentile of `TT_SEC` per group. -/
def data_perc_of (data : List TodRow) (q1 q2 : ℤ) : List PercRow :=
  let dataPerc := data.filter fun r => r.tt_sec.isSome
  ((dataPerc.map fun r => (r.tmc_code, r.tod)).dedup).map fun k =>
    ⟨k.1, k.2, percentile_closest_observation (group_travel_times data k.1 k.2) q1,
      percentile_closest_observation (group_travel_times data k.1 k.2) q2⟩

/-- main.py line 80: the `LOTTR` column is `TTQ2P / TTQ1P`.  Pandas propagates
`NaN` when either operand is `NaN` and produces a non-finite float when the
denominator is zero; both "undefined" outcomes are modelled as `none`. -/
def lottrOf (ttq2p ttq1p : Option ℚ) : Option ℚ :=
  match ttq2p, ttq1p with
  | some a, some b => if b = 0 then none else some (a / b)
  | _, _ => none

/-- A row after `add_lottr_to_dataset`: the bucketed columns plus the two
percentile columns (renamed `TT{q1}P`/`TT{q2}P` in the csv) and `LOTTR`. -/
structure LottrRow where
  tmc_code : String
  datetime : Timestamp
  mph : Option ℚ
  tt_sec : Option ℚ
  hod : ℕ
  dow : ℕ
  tod : TOD
  ttq1p : Option ℚ
  ttq2p : Option ℚ
  lottr : Option ℚ
deriving DecidableEq

/-- main.py lines 78-80: left-merge `data_perc` back onto every row on the
common columns `(tmc_code, TOD)` (group keys are unique in `data_perc`, so the
merge is a lookup), then compute `LOTTR` per row. -/
def merge_left_on_group (data : List TodRow) (perc : List PercRow) : List LottrRow :=
  data.map fun r =>
    match perc.find? fun p => decide (p.tmc_code = r.tmc_code ∧ p.tod = r.tod) with
    | some p => ⟨r.tmc_code, r.datetime, r.mph, r.tt_sec, r.hod, r.dow, r.tod,
        p.ttq1p, p.ttq2p, lottrOf p.ttq2p p.ttq1p⟩
    | none => ⟨r.tmc_code, r.datetime, r.mph, r.tt_sec, r.hod, r.dow, r.tod,
        none, none, none⟩

/-- The dataset produced by `add_lottr_to_dataset` once validation has passed. -/
def add_lottr_core (data : List TodRow) (q1 q2 : ℤ) : List LottrRow :=
  merge_left_on_group data (data_perc_of data q1 q2)

/-- main.py lines 69-82: `add_lottr_to_dataset`, including the validation of
`q1`, `q2` at lines 70-71 (`raise Exception(...)`). -/
def add_lottr_to_dataset (data : List TodRow) (q1 q2 : ℤ) :
    Except String (List LottrRow) :=
  if (q1 < 0 ∨ q1 > 100) ∨ (q2 < 0 ∨ q2 > 100) then
    .error "q1 and q2 must be between 0 and 100."
  else
    .ok (add_lottr_core data q1 q2)

/-- main.py line 102: `pd.merge(data_int[['tmc_code','DATETIME']], data_int_trk,
how='left')` — left join of the all-vehicle keys with the raw truck rows on the
common columns `(tmc_code, DATETIME)`, creating (measurement-less) rows for
all-vehicle keys missing from the truck feed. -/
def data_int_trk_rows (dataInt : List LottrRow) (trkRaw : List RawRow) : List RawRow :=
  dataInt.flatMap fun p =>
    if (trkRaw.filter fun s =>
        decide (s.tmc_code = p.tmc_code ∧ s.datetime = p.datetime)).isEmpty then
      [⟨p.tmc_code, p.datetime, none, none⟩]
    else
      (trkRaw.filter fun s =>
        decide (s.tmc_code = p.tmc_code ∧ s.datetime = p.datetime)).map
          fun s => ⟨p.tmc_code, p.datetime, s.mph, s.tt_sec⟩

/-- One row of `data_int_merged` (after line 121 drops the redundant
`TRK_tmc_code`, `TRK_DATETIME`, `TRK_HOD`, `TRK_DOW`, `TRK_TOD` columns):
the all-vehicle columns (here `ttq1p`/`ttq2p` are the renamed `TT50P`/`TT80P`),
the surviving truck columns (`TRK_` prefixed, `trk_ttq1p`/`trk_ttq2p` being
`TRK_TT50P`/`TRK_TT95P`), and `FLAG`. -/
structure MergedRow where
  tmc_code : String
  datetime : Timestamp
  mph : Option ℚ
  tt_sec : Option ℚ
  hod : ℕ
  dow : ℕ
  tod : TOD
  ttq1p : Option ℚ
  ttq2p : Option ℚ
  lottr : Option ℚ
  trk_mph : Option ℚ
  trk_tt_sec : Option ℚ
  trk_ttq1p : Option ℚ
  trk_ttq2p : Option ℚ
  trk_lottr : Option ℚ
  flag : ℕ
deriving DecidableEq

/-- A merged row built from an all-vehicle row `p` and its truck match `s`
(`none` when the truck side had no matching key: all `TRK_` columns are `NaN`).
`FLAG` does not exist yet at this point (the column is created at line 116);
it is initialised to `0` here and always overwritten by `setFlagRow`. -/
def mkMergedRow (p : LottrRow) (s : Option LottrRow) : MergedRow :=
  { tmc_code := p.tmc_code, datetime := p.datetime, mph := p.mph, tt_sec := p.tt_sec,
    hod := p.hod, dow := p.dow, tod := p.tod,
    ttq1p := p.ttq1p, ttq2p := p.ttq2p, lottr := p.lottr,
    trk_mph := s.bind (·.mph), trk_tt_sec := s.bind (·.tt_sec),
    trk_ttq1p := s.bind (·.ttq1p), trk_ttq2p := s.bind (·.ttq2p),
    trk_lottr := s.bind (·.lottr),
    flag := 0 }

/-- main.py line 114: `pd.merge(data_int, data_int_trk, how='left',
left_on=['tmc_code','DATETIME'], right_on=['TRK_tmc_code','TRK_DATETIME'])`:
one output row per left row and matching right row, or a single `NaN`-padded
row when the left row has no match. -/
def joinTrk (P S : List LottrRow) : List MergedRow :=
  P.flatMap fun p =>
    if (S.filter fun s =>
        decide (s.tmc_code = p.tmc_code ∧ s.datetime = p.datetime)).isEmpty then
      [mkMergedRow p none]
    else
      (S.filter fun s =>
        decide (s.tmc_code = p.tmc_code ∧ s.datetime = p.datetime)).map
          fun s => mkMergedRow p (some s)

/-- main.py lines 116-118: `FLAG` is `1` where `TRK_TT_SEC` is `NaN`, else `0`
(the `fillna(0)`). -/
def setFlagRow (r : MergedRow) : MergedRow :=
  if r.trk_tt_sec = none then { r with flag := 1 } else { r with flag := 0 }

/-- main.py line 120: where `TRK_TT_SEC` is `NaN`, overwrite
`['TRK_MPH','TRK_TT_SEC']` with the row's `['MPH','TT_SEC']`. -/
def imputeRow (r : MergedRow) : MergedRow :=
  if r.trk_tt_sec = none then { r with trk_mph := r.mph, trk_tt_sec := r.tt_sec } else r

/-- main.py lines 114-121: the merged Interstate dataset before this variant of
the pipeline applies the imputation of line 120. -/
def data_int_merged_noimpute (P S : List LottrRow) : List MergedRow :=
  (joinTrk P S).map setFlagRow

/-- main.py lines 114-121: join the truck dataset onto the all-vehicle dataset,
create `FLAG`, and impute the truck measurements from the all-vehicle ones
where the truck travel time is missing. -/
def data_int_merged (P S : List LottrRow) : List MergedRow :=
  ((joinTrk P S).map setFlagRow).map imputeRow

/-- main.py lines 100-108: the truck branch of the pipeline from the point the
raw truck rows exist — restrict to the all-vehicle keys (line 102), add the
time-bucket columns (line 104), add the 50th/95th percentiles and LOTTR
(line 106; 50 and 95 pass the range check, so `add_lottr_core` applies). -/
def trkPipeline (dataInt : List LottrRow) (trkRaw : List RawRow) : List LottrRow :=
  add_lottr_core (add_hod_dow_tod_to_dataset (data_int_trk_rows dataInt trkRaw)) 50 95

/-- Whether `s` has a `(tmc_code, DATETIME)` key that occurs in the all-vehicle dataset. -/
def trkKeyInAllVeh (dataInt : List LottrRow) (s : RawRow) : Bool :=
  dataInt.any fun p => decide (s.tmc_code = p.tmc_code ∧ s.datetime = p.datetime)

/-! Concrete sample rows used to instantiate the theorems. -/

/-- A concrete weekday timestamp (hour 7, python weekday 0 = Monday). -/
def ts0 : Timestamp := ⟨7, 0, 0⟩

/-- A bucketed row for segment `"X"` with travel time 7. -/
def trow7 : TodRow := ⟨"X", ts0, some 55, some 7, 7, 2, TOD.AM⟩

/-- The percentile record of the one-row group of `trow7` (both percentiles 7). -/
def perc7 : PercRow := ⟨"X", TOD.AM, some 7, some 7⟩

/-- A bucketed row for segment `"Z"` with travel time 0. -/
def trow0 : TodRow := ⟨"Z", ts0, some 55, some 0, 7, 2, TOD.AM⟩

/-- The reliability row the calculator produces from `[trow0]` (zero `TTQ1P`,
so `LOTTR` is undefined). -/
def lrow0 : LottrRow := ⟨"Z", ts0, some 55, some 0, 7, 2, TOD.AM, some 0, some 0, none⟩

/-- A bucketed row with missing travel time. -/
def trowNA : TodRow := ⟨"Y", ts0, some 55, none, 7, 2, TOD.AM⟩

/-- The reliability row the calculator produces from `[trowNA]` (missing
percentiles and `LOTTR`). -/
def lrowNA : LottrRow := ⟨"Y", ts0, some 55, none, 7, 2, TOD.AM, none, none, none⟩

/-- The spec's example all-vehicle reliability row: `MPH = 55`, `TT_SEC = 120`. -/
def exP55 : LottrRow := ⟨"X", ts0, some 55, some 120, 7, 2, TOD.AM, none, none, none⟩

/-- The merged row produced from `exP55` when the truck feed has no matching
key: `FLAG = 1` and the truck measurements imputed from the all-vehicle ones. -/
def exMerged55 : MergedRow :=
  ⟨"X", ts0, some 55, some 120, 7, 2, TOD.AM, none, none, none,
    some 55, some 120, none, none, none, 1⟩

/-- Row `exMerged55` before the imputation step (truck measurements still missing). -/
def exMerged55noimp : MergedRow :=
  ⟨"X", ts0, some 55, some 120, 7, 2, TOD.AM, none, none, none,
    none, none, none, none, none, 1⟩

/-- A truck reliability row matching `exP55`'s key with a measured travel time. -/
def exS200 : LottrRow := ⟨"X", ts0, some 40, some 200, 7, 2, TOD.AM, none, none, none⟩

section Theorems

/-- On a nonempty sample the closest-observation index is in range. -/
theorem closestObservationIndex_lt (n : ℕ) (q : ℤ) (hn : 0 < n) :
    closestObservationIndex n q < n := by
  unfold closestObservationIndex
  exact lt_of_le_of_lt (Nat.min_le_left _ _) (by omega)

/-- The closest-observation percentile of a nonempty sample is one of the
sample's values. -/
theorem percentile_mem (xs : List ℚ) (q : ℤ) (hxs : xs ≠ []) :
    ∃ v ∈ xs, percentile_closest_observation xs q = some v := by
  have hlen : (xs.insertionSort (· ≤ ·)).length = xs.length :=
    List.length_insertionSort _ _
  have hn : 0 < xs.length := List.length_pos.mpr hxs
  have hidx : closestObservationIndex xs.length q < (xs.insertionSort (· ≤ ·)).length := by
    rw [hlen]; exact closestObservationIndex_lt _ _ hn
  exact ⟨(xs.insertionSort (· ≤ ·))[closestObservationIndex xs.length q],
    (List.mem_insertionSort _).mp (List.getElem_mem hidx),
    List.getElem?_eq_getElem hidx⟩

/-- Every group key occurring among the rows that survive the `dropna` has a
nonempty list of group travel times. -/
theorem group_ne_nil_of_mem_keys (data : List TodRow) (k : String × TOD)
    (hk : k ∈ (data.filter fun r => r.tt_sec.isSome).map fun r => (r.tmc_code, r.tod)) :
    group_travel_times data k.1 k.2 ≠ [] := by
  obtain ⟨r, hrmem, hrk⟩ := List.mem_map.mp hk
  obtain ⟨hrdata, hrsome⟩ := List.mem_filter.mp hrmem
  obtain ⟨v, hv⟩ := Option.isSome_iff_exists.mp (by simpa using hrsome)
  refine List.ne_nil_of_mem (a := v) ?_
  unfold group_travel_times
  refine List.mem_filterMap.mpr ⟨r, ?_, hv⟩
  refine List.mem_filter.mpr ⟨List.mem_filter.mpr ⟨hrdata, hrsome⟩, ?_⟩
  simp [← hrk]

/-- C2: every per-group percentile value produced by the Reliability Calculator
is one of the travel times actually observed in that group, for every valid
percentile pair. -/
theorem C2_percentiles_are_observed (data : List TodRow) (q1 q2 : ℤ)
    (hq1l : 0 ≤ q1) (hq1h : q1 ≤ 100) (hq2l : 0 ≤ q2) (hq2h : q2 ≤ 100)
    (p : PercRow) (hp : p ∈ data_perc_of data q1 q2) :
    (∃ v ∈ group_travel_times data p.tmc_code p.tod, p.ttq1p = some v) ∧
    (∃ v ∈ group_travel_times data p.tmc_code p.tod, p.ttq2p = some v) := by
  simp only [data_perc_of] at hp
  obtain ⟨k, hkmem, hkp⟩ := List.mem_map.mp hp
  have hne := group_ne_nil_of_mem_keys data k (List.mem_dedup.mp hkmem)
  obtain ⟨v1, hv1, he1⟩ := percentile_mem (group_travel_times data k.1 k.2) q1 hne
  obtain ⟨v2, hv2, he2⟩ := percentile_mem (group_travel_times data k.1 k.2) q2 hne
  subst hkp
  exact ⟨⟨v1, hv1, he1⟩, ⟨v2, hv2, he2⟩⟩

/-- Every output row of the Reliability Calculator carries
`LOTTR = lottrOf TTQ2P TTQ1P` of its own percentile columns. -/
theorem lottr_eq_of_mem (data : List TodRow) (q1 q2 : ℤ) (r : LottrRow)
    (hr : r ∈ add_lottr_core data q1 q2) : r.lottr = lottrOf r.ttq2p r.ttq1p := by
  simp only [add_lottr_core, merge_left_on_group] at hr
  obtain ⟨x, hx, hxr⟩ := List.mem_map.mp hr
  rcases hfind : (data_perc_of data q1 q2).find?
      (fun p => decide (p.tmc_code = x.tmc_code ∧ p.tod = x.tod)) with _ | p <;>
    rw [hfind] at hxr <;> subst hxr <;> rfl

/-- C4: `LOTTR` is exactly `TTQ2P / TTQ1P`, and is undefined (`none`, never a
substituted default number) whenever `TTQ1P` is zero or either percentile is
missing. -/
theorem C4_lottr_division (data : List TodRow) (q1 q2 : ℤ) (r : LottrRow)
    (hr : r ∈ add_lottr_core data q1 q2) :
    (∀ a b, r.ttq2p = some a → r.ttq1p = some b → b ≠ 0 → r.lottr = some (a / b)) ∧
    ((r.ttq1p = none ∨ r.ttq2p = none ∨ r.ttq1p = some 0) → r.lottr = none) := by
  have h := lottr_eq_of_mem data q1 q2 r hr
  constructor
  · intro a b ha hb hb0
    rw [h, ha, hb]
    simp [lottrOf, hb0]
  · intro hcase
    rw [h]
    rcases hcase with h1 | h2 | h3
    · rw [h1]; cases r.ttq2p <;> rfl
    · rw [h2]; cases r.ttq1p <;> rfl
    · rw [h3]; cases r.ttq2p <;> simp [lottrOf]

/-- Witness for `C2_percentiles_are_observed` on the one-row dataset `[trow7]`. -/
theorem C2_percentiles_are_observed_witness :
    (∃ v ∈ group_travel_times [trow7] perc7.tmc_code perc7.tod, perc7.ttq1p = some v) ∧
    (∃ v ∈ group_travel_times [trow7] perc7.tmc_code perc7.tod, perc7.ttq2p = some v) :=
  C2_percentiles_are_observed [trow7] 50 80 (by decide) (by decide) (by decide)
    (by decide) perc7 (by decide)

/-- Witness for `C4_lottr_division`: the group of `trow0` has `TTQ1P = 0`, so its
`LOTTR` is undefined. -/
theorem C4_lottr_division_witness : lrow0.lottr = none :=
  (C4_lottr_division [trow0] 50 80 lrow0 (by decide)).2 (Or.inr (Or.inr (by decide)))

/-- Lemma: `find?` is the head of `filter`. -/
theorem find?_eq_head?_of_filter {α : Type} (p : α → Bool) (l : List α) :
    l.find? p = (l.filter p).head? := by
  induction l with
  | nil => rfl
  | cons a l ih =>
    by_cases h : p a
    · simp [List.find?_cons, List.filter_cons, h]
    · simp only [List.find?_cons, List.filter_cons, h, if_false, ite_false, Bool.false_eq_true]
      exact ih

/-- A key whose group has no valid travel time has no row in `data_perc`. -/
theorem find?_data_perc_eq_none (data : List TodRow) (q1 q2 : ℤ) (tmc : String)
    (tod : TOD) (h : group_travel_times data tmc tod = []) :
    (data_perc_of data q1 q2).find?
      (fun p => decide (p.tmc_code = tmc ∧ p.tod = tod)) = none := by
  apply List.find?_eq_none.mpr
  intro p hp hpred
  simp only [data_perc_of] at hp
  obtain ⟨k, hk, rfl⟩ := List.mem_map.mp hp
  simp only [decide_eq_true_eq] at hpred
  have hne := group_ne_nil_of_mem_keys data k (List.mem_dedup.mp hk)
  rw [hpred.1, hpred.2] at hne
  exact hne h

/-- A key whose group has a valid travel time owns exactly the expected
`data_perc` row. -/
theorem find?_data_perc_eq_some (data : List TodRow) (q1 q2 : ℤ) (tmc : String)
    (tod : TOD)
    (h : (tmc, tod) ∈ (data.filter fun r => r.tt_sec.isSome).map fun r => (r.tmc_code, r.tod)) :
    (data_perc_of data q1 q2).find?
      (fun p => decide (p.tmc_code = tmc ∧ p.tod = tod))
      = some ⟨tmc, tod,
          percentile_closest_observation (group_travel_times data tmc tod) q1,
          percentile_closest_observation (group_travel_times data tmc tod) q2⟩ := by
  simp only [data_perc_of]
  rw [List.find?_map]
  have hmem : (tmc, tod) ∈
      ((data.filter fun r => r.tt_sec.isSome).map fun r => (r.tmc_code, r.tod)).dedup :=
    List.mem_dedup.mpr h
  have hex : ((((data.filter fun r => r.tt_sec.isSome).map
      fun r => (r.tmc_code, r.tod)).dedup).find?
        (fun k => decide (k.1 = tmc ∧ k.2 = tod))).isSome :=
    List.find?_isSome.mpr ⟨(tmc, tod), hmem, by simp⟩
  obtain ⟨k0, hk0⟩ := Option.isSome_iff_exists.mp hex
  have hpred := List.find?_some hk0
  simp only [decide_eq_true_eq] at hpred
  have hk0eq : k0 = (tmc, tod) := Prod.ext hpred.1 hpred.2
  subst hk0eq
  have hcomp : (fun p : PercRow => decide (p.tmc_code = tmc ∧ p.tod = tod)) ∘
      (fun k : String × TOD =>
        (⟨k.1, k.2, percentile_closest_observation (group_travel_times data k.1 k.2) q1,
          percentile_closest_observation (group_travel_times data k.1 k.2) q2⟩ : PercRow))
      = fun k : String × TOD => decide (k.1 = tmc ∧ k.2 = tod) := rfl
  rw [hcomp, hk0]
  rfl

/-- A nonempty group key occurs among the surviving rows' keys. -/
theorem mem_keys_of_group_ne_nil (data : List TodRow) (tmc : String) (tod : TOD)
    (h : group_travel_times data tmc tod ≠ []) :
    (tmc, tod) ∈ (data.filter fun r => r.tt_sec.isSome).map fun r => (r.tmc_code, r.tod) := by
  obtain ⟨v, hv⟩ := List.exists_mem_of_ne_nil _ h
  simp only [group_travel_times] at hv
  obtain ⟨x, hx, hxv⟩ := List.mem_filterMap.mp hv
  obtain ⟨hx1, hx2⟩ := List.mem_filter.mp hx
  simp only [decide_eq_true_eq] at hx2
  exact List.mem_map.mpr ⟨x, hx1, Prod.ext hx2.1 hx2.2⟩

/-- C5: the Reliability Calculator returns exactly the input rows (same base
columns, in order); a row whose group has no non-missing travel time receives
missing percentiles, a row whose group has one receives the percentiles of the
group's non-missing travel times (missing values are excluded, neither treated
as zero nor dropping the group). -/
theorem C5_join_preserves_rows (data : List TodRow) (q1 q2 : ℤ) :
    (add_lottr_core data q1 q2).length = data.length ∧
    ∀ (i : ℕ) (r : TodRow), data[i]? = some r →
      ∃ o : LottrRow, (add_lottr_core data q1 q2)[i]? = some o ∧
        o.tmc_code = r.tmc_code ∧ o.datetime = r.datetime ∧ o.mph = r.mph ∧
        o.tt_sec = r.tt_sec ∧ o.hod = r.hod ∧ o.dow = r.dow ∧ o.tod = r.tod ∧
        (group_travel_times data r.tmc_code r.tod = [] →
          o.ttq1p = none ∧ o.ttq2p = none) ∧
        (group_travel_times data r.tmc_code r.tod ≠ [] →
          o.ttq1p = percentile_closest_observation
            (group_travel_times data r.tmc_code r.tod) q1 ∧
          o.ttq2p = percentile_closest_observation
            (group_travel_times data r.tmc_code r.tod) q2) := by
  constructor
  · simp [add_lottr_core, merge_left_on_group]
  · intro i r hir
    simp only [add_lottr_core, merge_left_on_group]
    rw [List.getElem?_map, hir, Option.map_some']
    by_cases hg : group_travel_times data r.tmc_code r.tod = []
    · rw [find?_data_perc_eq_none data q1 q2 _ _ hg]
      exact ⟨_, rfl, rfl, rfl, rfl, rfl, rfl, rfl, rfl,
        fun _ => ⟨rfl, rfl⟩, fun hne => absurd hg hne⟩
    · rw [find?_data_perc_eq_some data q1 q2 _ _ (mem_keys_of_group_ne_nil data _ _ hg)]
      exact ⟨_, rfl, rfl, rfl, rfl, rfl, rfl, rfl, rfl,
        fun he => absurd he hg, fun _ => ⟨rfl, rfl⟩⟩

/-- Witness for `C5_join_preserves_rows` on the one-row dataset `[trowNA]`
(its travel time is missing, so its group is empty). -/
theorem C5_join_preserves_rows_witness :
    ∃ o : LottrRow, (add_lottr_core [trowNA] 50 80)[0]? = some o ∧
      o.tmc_code = trowNA.tmc_code ∧ o.datetime = trowNA.datetime ∧
      o.mph = trowNA.mph ∧ o.tt_sec = trowNA.tt_sec ∧ o.hod = trowNA.hod ∧
      o.dow = trowNA.dow ∧ o.tod = trowNA.tod ∧
      (group_travel_times [trowNA] trowNA.tmc_code trowNA.tod = [] →
        o.ttq1p = none ∧ o.ttq2p = none) ∧
      (group_travel_times [trowNA] trowNA.tmc_code trowNA.tod ≠ [] →
        o.ttq1p = percentile_closest_observation
          (group_travel_times [trowNA] trowNA.tmc_code trowNA.tod) 50 ∧
        o.ttq2p = percentile_closest_observation
          (group_travel_times [trowNA] trowNA.tmc_code trowNA.tod) 80) :=
  (C5_join_preserves_rows [trowNA] 50 80).2 0 trowNA (by decide)

/-- Each merged row produced from all-vehicle row `p` and the optional matching
truck row `m` carries `p`'s columns unchanged, the truck percentile and `LOTTR`
columns from `m`, `FLAG = 1` exactly when the joined truck travel time is
missing (then the truck measurements are imputed from `p`'s), and `FLAG = 0`
otherwise (then the truck measurements are `m`'s own). -/
theorem merged_row_fields (p : LottrRow) (m : Option LottrRow) :
    (imputeRow (setFlagRow (mkMergedRow p m))).tmc_code = p.tmc_code ∧
    (imputeRow (setFlagRow (mkMergedRow p m))).datetime = p.datetime ∧
    (imputeRow (setFlagRow (mkMergedRow p m))).mph = p.mph ∧
    (imputeRow (setFlagRow (mkMergedRow p m))).tt_sec = p.tt_sec ∧
    (imputeRow (setFlagRow (mkMergedRow p m))).hod = p.hod ∧
    (imputeRow (setFlagRow (mkMergedRow p m))).dow = p.dow ∧
    (imputeRow (setFlagRow (mkMergedRow p m))).tod = p.tod ∧
    (imputeRow (setFlagRow (mkMergedRow p m))).ttq1p = p.ttq1p ∧
    (imputeRow (setFlagRow (mkMergedRow p m))).ttq2p = p.ttq2p ∧
    (imputeRow (setFlagRow (mkMergedRow p m))).lottr = p.lottr ∧
    (imputeRow (setFlagRow (mkMergedRow p m))).trk_ttq1p = m.bind (·.ttq1p) ∧
    (imputeRow (setFlagRow (mkMergedRow p m))).trk_ttq2p = m.bind (·.ttq2p) ∧
    (imputeRow (setFlagRow (mkMergedRow p m))).trk_lottr = m.bind (·.lottr) ∧
    ((imputeRow (setFlagRow (mkMergedRow p m))).flag = 1 ↔ m.bind (·.tt_sec) = none) ∧
    ((imputeRow (setFlagRow (mkMergedRow p m))).flag = 0 ∨
      (imputeRow (setFlagRow (mkMergedRow p m))).flag = 1) ∧
    (m.bind (·.tt_sec) = none →
      (imputeRow (setFlagRow (mkMergedRow p m))).trk_mph = p.mph ∧
      (imputeRow (setFlagRow (mkMergedRow p m))).trk_tt_sec = p.tt_sec) ∧
    (m.bind (·.tt_sec) ≠ none →
      (imputeRow (setFlagRow (mkMergedRow p m))).trk_mph = m.bind (·.mph) ∧
      (imputeRow (setFlagRow (mkMergedRow p m))).trk_tt_sec = m.bind (·.tt_sec)) := by
  by_cases h : m.bind (·.tt_sec) = none <;>
    simp [mkMergedRow, setFlagRow, imputeRow, h]

/-- Membership description of the raw left join of main.py line 114. -/
theorem mem_joinTrk (P S : List LottrRow) (x : MergedRow) (hx : x ∈ joinTrk P S) :
    ∃ p ∈ P, x = mkMergedRow p none ∨
      ∃ s ∈ S, s.tmc_code = p.tmc_code ∧ s.datetime = p.datetime ∧
        x = mkMergedRow p (some s) := by
  simp only [joinTrk] at hx
  obtain ⟨p, hp, hxin⟩ := List.mem_flatMap.mp hx
  refine ⟨p, hp, ?_⟩
  by_cases he : (S.filter fun s =>
      decide (s.tmc_code = p.tmc_code ∧ s.datetime = p.datetime)).isEmpty
  · rw [if_pos he] at hxin
    exact Or.inl (List.mem_singleton.mp hxin)
  · rw [if_neg he] at hxin
    obtain ⟨s, hs, hxs⟩ := List.mem_map.mp hxin
    obtain ⟨hsS, hskey⟩ := List.mem_filter.mp hs
    simp only [decide_eq_true_eq] at hskey
    exact Or.inr ⟨s, hsS, hskey.1, hskey.2, hxs.symm⟩

/-- Membership description of the merged dataset of main.py lines 114-120. -/
theorem mem_data_int_merged (P S : List LottrRow) (o : MergedRow)
    (ho : o ∈ data_int_merged P S) :
    ∃ p ∈ P, (o = imputeRow (setFlagRow (mkMergedRow p none))) ∨
      ∃ s ∈ S, s.tmc_code = p.tmc_code ∧ s.datetime = p.datetime ∧
        o = imputeRow (setFlagRow (mkMergedRow p (some s))) := by
  simp only [data_int_merged, List.mem_map] at ho
  obtain ⟨x1, hx1, rfl⟩ := ho
  obtain ⟨x2, hx2, rfl⟩ := hx1
  obtain ⟨p, hp, hcase⟩ := mem_joinTrk P S x2 hx2
  rcases hcase with h | ⟨s, hs, h1, h2, h⟩
  · exact ⟨p, hp, Or.inl (by rw [h])⟩
  · exact ⟨p, hp, Or.inr ⟨s, hs, h1, h2, by rw [h]⟩⟩

/-- C7: in the merged output every `FLAG = 1` row carries the primary row's
speed and travel time in its truck fields, and every `FLAG = 0` row retains
the matched truck row's own measurements; in particular a truck feed with no
row for a key whose all-vehicle row has `MPH = 55`, `TT_SEC = 120` yields
`FLAG = 1`, truck `MPH = 55`, truck `TT_SEC = 120`. -/
theorem C7_flag_imputation (P S : List LottrRow) :
    (∀ o ∈ data_int_merged P S,
      (o.flag = 1 → o.trk_mph = o.mph ∧ o.trk_tt_sec = o.tt_sec) ∧
      (o.flag = 0 → ∃ s ∈ S, s.tmc_code = o.tmc_code ∧ s.datetime = o.datetime ∧
        s.tt_sec ≠ none ∧ o.trk_mph = s.mph ∧ o.trk_tt_sec = s.tt_sec)) ∧
    (data_int_merged [exP55] []).map (·.flag) = [1] ∧
    (data_int_merged [exP55] []).map (·.trk_mph) = [some 55] ∧
    (data_int_merged [exP55] []).map (·.trk_tt_sec) = [some 120] := by
  refine ⟨?_, by decide, by decide, by decide⟩
  intro o ho
  obtain ⟨p, hp, hcase⟩ := mem_data_int_merged P S o ho
  rcases hcase with rfl | ⟨s, hs, h1, h2, rfl⟩
  · obtain ⟨f1, f2, f3, f4, _, _, _, _, _, _, _, _, _, hiff, _, himp, _⟩ :=
      merged_row_fields p none
    refine ⟨fun _ => ?_, fun h0 => ?_⟩
    · obtain ⟨g1, g2⟩ := himp rfl
      exact ⟨g1.trans f3.symm, g2.trans f4.symm⟩
    · exact absurd (h0.symm.trans (hiff.mpr rfl)) (by decide)
  · obtain ⟨f1, f2, f3, f4, _, _, _, _, _, _, _, _, _, hiff, _, himp, hretain⟩ :=
      merged_row_fields p (some s)
    by_cases hts : s.tt_sec = none
    · refine ⟨fun _ => ?_, fun h0 => ?_⟩
      · obtain ⟨g1, g2⟩ := himp (by simpa using hts)
        exact ⟨g1.trans f3.symm, g2.trans f4.symm⟩
      · exact absurd (h0.symm.trans (hiff.mpr (by simpa using hts))) (by decide)
    · refine ⟨fun h1f => ?_, fun _ => ?_⟩
      · exact absurd (hiff.mp h1f) (by simpa using hts)
      · obtain ⟨g1, g2⟩ := hretain (by simpa using hts)
        exact ⟨s, hs, h1.trans f1.symm, h2.trans f2.symm, hts, g1, g2⟩

/-- Witness for `C7_flag_imputation`: the merged row of `exP55` against an
empty truck feed has its truck measurements equal to the primary ones. -/
theorem C7_flag_imputation_witness :
    exMerged55.trk_mph = exMerged55.mph ∧ exMerged55.trk_tt_sec = exMerged55.tt_sec :=
  ((C7_flag_imputation [exP55] []).1 exMerged55 (by decide)).1 (by decide)

/-- When every left key matches at most one truck row, the left join produces
exactly one row per left row, built from the unique match. -/
theorem joinTrk_eq_map_of_unique (P S : List LottrRow) :
    (∀ p ∈ P, (S.filter fun s =>
      decide (s.tmc_code = p.tmc_code ∧ s.datetime = p.datetime)).length ≤ 1) →
    joinTrk P S = P.map fun p =>
      mkMergedRow p (S.find? fun s =>
        decide (s.tmc_code = p.tmc_code ∧ s.datetime = p.datetime)) := by
  unfold joinTrk
  induction P with
  | nil => intro _; rfl
  | cons p tl ih =>
    intro hS
    rw [List.flatMap_cons, List.map_cons,
      ih fun q hq => hS q (List.mem_cons_of_mem _ hq)]
    have hbranch :
        (if (S.filter fun s =>
            decide (s.tmc_code = p.tmc_code ∧ s.datetime = p.datetime)).isEmpty then
          [mkMergedRow p none]
        else
          (S.filter fun s =>
            decide (s.tmc_code = p.tmc_code ∧ s.datetime = p.datetime)).map
              fun s => mkMergedRow p (some s))
        = [mkMergedRow p (S.find? fun s =>
            decide (s.tmc_code = p.tmc_code ∧ s.datetime = p.datetime))] := by
      rw [find?_eq_head?_of_filter]
      rcases hfe : S.filter
          (fun s => decide (s.tmc_code = p.tmc_code ∧ s.datetime = p.datetime))
        with _ | ⟨a, tail⟩
      · rw [hfe]
        rfl
      · have h1 := hS p (List.mem_cons_self _ _)
        rw [hfe] at h1
        have htail : tail = [] := by
          simp only [List.length_cons] at h1
          exact List.eq_nil_of_length_eq_zero (by omega)
        subst htail
        rw [hfe]
        rfl
    rw [hbranch]
    rfl

/-- C6: with at most one truck row per key, the merged output has exactly one
row per primary row, in order, each keyed by its primary row; `FLAG` is `1`
exactly when the joined truck travel time is missing (no match or missing
value), else `0`, and takes no other value; truck rows with no primary match
contribute no output row (every output key comes from `P`). -/
theorem C6_merger_left_join (P S : List LottrRow)
    (hS : ∀ p ∈ P, (S.filter fun s =>
      decide (s.tmc_code = p.tmc_code ∧ s.datetime = p.datetime)).length ≤ 1) :
    (data_int_merged P S).length = P.length ∧
    (∀ (i : ℕ) (p : LottrRow), P[i]? = some p →
      ∃ o : MergedRow, (data_int_merged P S)[i]? = some o ∧
        o.tmc_code = p.tmc_code ∧ o.datetime = p.datetime ∧
        (o.flag = 1 ↔ ((S.find? fun s =>
          decide (s.tmc_code = p.tmc_code ∧ s.datetime = p.datetime)).bind
            (·.tt_sec)) = none) ∧
        (o.flag = 0 ∨ o.flag = 1)) ∧
    (∀ o ∈ data_int_merged P S, ∃ p ∈ P,
      o.tmc_code = p.tmc_code ∧ o.datetime = p.datetime) := by
  have hform : data_int_merged P S = P.map fun p =>
      imputeRow (setFlagRow (mkMergedRow p (S.find? fun s =>
        decide (s.tmc_code = p.tmc_code ∧ s.datetime = p.datetime)))) := by
    unfold data_int_merged
    rw [joinTrk_eq_map_of_unique P S hS, List.map_map, List.map_map]
    rfl
  refine ⟨?_, ?_, ?_⟩
  · rw [hform, List.length_map]
  · intro i p hip
    rw [hform, List.getElem?_map, hip, Option.map_some']
    obtain ⟨f1, f2, _, _, _, _, _, _, _, _, _, _, _, hiff, hor, _, _⟩ :=
      merged_row_fields p (S.find? fun s =>
        decide (s.tmc_code = p.tmc_code ∧ s.datetime = p.datetime))
    exact ⟨_, rfl, f1, f2, hiff, hor⟩
  · intro o ho
    obtain ⟨p, hp, hcase⟩ := mem_data_int_merged P S o ho
    rcases hcase with rfl | ⟨s, hs, h1, h2, rfl⟩
    · obtain ⟨f1, f2, _⟩ := merged_row_fields p none
      exact ⟨p, hp, f1, f2⟩
    · obtain ⟨f1, f2, _⟩ := merged_row_fields p (some s)
      exact ⟨p, hp, f1, f2⟩

/-- Witness for `C6_merger_left_join` on `P = [exP55]`, `S = [exS200]`
(one matching truck row with a measured travel time). -/
theorem C6_merger_left_join_witness :
    ∃ o : MergedRow, (data_int_merged [exP55] [exS200])[0]? = some o ∧
      o.tmc_code = exP55.tmc_code ∧ o.datetime = exP55.datetime ∧
      (o.flag = 1 ↔ (([exS200].find? fun s =>
        decide (s.tmc_code = exP55.tmc_code ∧ s.datetime = exP55.datetime)).bind
          (·.tt_sec)) = none) ∧
      (o.flag = 0 ∨ o.flag = 1) :=
  (C6_merger_left_join [exP55] [exS200] (by decide)).2.1 0 exP55 (by decide)

/-- Congruence of `flatMap` on members. -/
theorem flatMap_congr_mem {α β : Type} (l : List α) (f g : α → List β)
    (h : ∀ a ∈ l, f a = g a) : l.flatMap f = l.flatMap g := by
  induction l with
  | nil => rfl
  | cons a tl ih =>
    rw [List.flatMap_cons, List.flatMap_cons, h a (List.mem_cons_self a tl),
      ih fun x hx => h x (List.mem_cons_of_mem a hx)]

/-- C9: truck observations whose key is absent from the all-vehicle feed are
discarded by the key-restriction merge (line 102), so they never reach the
truck time-bucketing, percentile, or LOTTR computation; and every all-vehicle
key gains a truck row. -/
theorem C9_truck_keys_restricted (dataInt : List LottrRow) (trkRaw : List RawRow) :
    data_int_trk_rows dataInt trkRaw
      = data_int_trk_rows dataInt (trkRaw.filter (trkKeyInAllVeh dataInt)) ∧
    trkPipeline dataInt trkRaw
      = trkPipeline dataInt (trkRaw.filter (trkKeyInAllVeh dataInt)) ∧
    ∀ p ∈ dataInt, ∃ r ∈ data_int_trk_rows dataInt trkRaw,
      r.tmc_code = p.tmc_code ∧ r.datetime = p.datetime := by
  have hfilter : ∀ p ∈ dataInt,
      (trkRaw.filter (trkKeyInAllVeh dataInt)).filter
        (fun s => decide (s.tmc_code = p.tmc_code ∧ s.datetime = p.datetime))
      = trkRaw.filter
        (fun s => decide (s.tmc_code = p.tmc_code ∧ s.datetime = p.datetime)) := by
    intro p hp
    rw [List.filter_filter]
    apply List.filter_congr
    intro s _
    by_cases hps : s.tmc_code = p.tmc_code ∧ s.datetime = p.datetime
    · have hkey : trkKeyInAllVeh dataInt s = true :=
        List.any_eq_true.mpr ⟨p, hp, by simpa using hps⟩
      simp [hps, hkey]
    · simp [hps]
  have hmain : data_int_trk_rows dataInt trkRaw
      = data_int_trk_rows dataInt (trkRaw.filter (trkKeyInAllVeh dataInt)) := by
    unfold data_int_trk_rows
    apply flatMap_congr_mem
    intro p hp
    rw [hfilter p hp]
  refine ⟨hmain, ?_, ?_⟩
  · unfold trkPipeline
    rw [hmain]
  · intro p hp
    unfold data_int_trk_rows
    rcases hfe : trkRaw.filter
        (fun s => decide (s.tmc_code = p.tmc_code ∧ s.datetime = p.datetime))
      with _ | ⟨a, tl⟩
    · refine ⟨⟨p.tmc_code, p.datetime, none, none⟩,
        List.mem_flatMap.mpr ⟨p, hp, ?_⟩, rfl, rfl⟩
      rw [hfe]
      exact List.mem_singleton.mpr rfl
    · refine ⟨⟨p.tmc_code, p.datetime, a.mph, a.tt_sec⟩,
        List.mem_flatMap.mpr ⟨p, hp, ?_⟩, rfl, rfl⟩
      rw [hfe]
      exact List.mem_map.mpr ⟨a, List.mem_cons_self _ _, rfl⟩

/-- Witness for `C9_truck_keys_restricted`: the all-vehicle key of `exP55`
gains a truck row even against an empty truck feed. -/
theorem C9_truck_keys_restricted_witness :
    ∃ r ∈ data_int_trk_rows [exP55] [],
      r.tmc_code = exP55.tmc_code ∧ r.datetime = exP55.datetime :=
  (C9_truck_keys_restricted [exP55] []).2.2 exP55 (by decide)

/-- Lemma: `imputeRow` touches no column other than `TRK_MPH` and `TRK_TT_SEC`. -/
theorem imputeRow_fields (r : MergedRow) :
    (imputeRow r).tmc_code = r.tmc_code ∧ (imputeRow r).datetime = r.datetime ∧
    (imputeRow r).mph = r.mph ∧ (imputeRow r).tt_sec = r.tt_sec ∧
    (imputeRow r).hod = r.hod ∧ (imputeRow r).dow = r.dow ∧
    (imputeRow r).tod = r.tod ∧ (imputeRow r).ttq1p = r.ttq1p ∧
    (imputeRow r).ttq2p = r.ttq2p ∧ (imputeRow r).lottr = r.lottr ∧
    (imputeRow r).trk_ttq1p = r.trk_ttq1p ∧ (imputeRow r).trk_ttq2p = r.trk_ttq2p ∧
    (imputeRow r).trk_lottr = r.trk_lottr ∧ (imputeRow r).flag = r.flag := by
  by_cases h : r.trk_tt_sec = none <;> simp [imputeRow, h]

/-- A row flagged `0` has a present truck travel time, so imputation leaves it
unchanged. -/
theorem imputeRow_of_flag_zero (x : MergedRow) (h : (setFlagRow x).flag = 0) :
    imputeRow (setFlagRow x) = setFlagRow x := by
  by_cases hx : x.trk_tt_sec = none
  · rw [setFlagRow, if_pos hx] at h
    simp at h
  · rw [setFlagRow, if_neg hx]
    rw [imputeRow, if_neg hx]

/-- C10: the imputation step changes nothing but the truck speed and travel
time of `FLAG = 1` rows — every other column of every row, and `FLAG = 0` rows
entirely, are identical with and without imputation; and a `FLAG = 1` row can
still carry missing truck percentiles and truck LOTTR even though its truck
measurements were filled from the primary feed. -/
theorem C10_imputation_frame (P S : List LottrRow) :
    ((data_int_merged P S).length = (data_int_merged_noimpute P S).length ∧
     ∀ (i : ℕ) (o o' : MergedRow), (data_int_merged_noimpute P S)[i]? = some o →
       (data_int_merged P S)[i]? = some o' →
       (o'.tmc_code = o.tmc_code ∧ o'.datetime = o.datetime ∧ o'.mph = o.mph ∧
        o'.tt_sec = o.tt_sec ∧ o'.hod = o.hod ∧ o'.dow = o.dow ∧ o'.tod = o.tod ∧
        o'.ttq1p = o.ttq1p ∧ o'.ttq2p = o.ttq2p ∧ o'.lottr = o.lottr ∧
        o'.trk_ttq1p = o.trk_ttq1p ∧ o'.trk_ttq2p = o.trk_ttq2p ∧
        o'.trk_lottr = o.trk_lottr ∧ o'.flag = o.flag) ∧
       (o.flag = 0 → o' = o)) ∧
    (data_int_merged [exP55] []).map (·.flag) = [1] ∧
    (data_int_merged [exP55] []).map (·.trk_tt_sec) = [some 120] ∧
    (data_int_merged [exP55] []).map (·.trk_ttq1p) = [none] ∧
    (data_int_merged [exP55] []).map (·.trk_lottr) = [none] := by
  refine ⟨⟨?_, ?_⟩, by decide, by decide, by decide, by decide⟩
  · rw [data_int_merged, data_int_merged_noimpute, List.length_map]
  · intro i o o' ho ho'
    have hrel : data_int_merged P S = (data_int_merged_noimpute P S).map imputeRow := rfl
    rw [hrel, List.getElem?_map, ho, Option.map_some'] at ho'
    have ho'eq : o' = imputeRow o := (Option.some.injEq _ _).mp ho'.symm
    subst ho'eq
    refine ⟨imputeRow_fields o, fun h0 => ?_⟩
    have homem : o ∈ data_int_merged_noimpute P S := by
      obtain ⟨hi, rfl⟩ := List.getElem?_eq_some.mp ho
      exact List.getElem_mem hi
    obtain ⟨x, _, rfl⟩ := List.mem_map.mp homem
    exact imputeRow_of_flag_zero x h0

/-- Witness for `C10_imputation_frame`: the merged row of `exP55` against an
empty truck feed, before and after imputation. -/
theorem C10_imputation_frame_witness :
    (exMerged55.tmc_code = exMerged55noimp.tmc_code ∧
     exMerged55.datetime = exMerged55noimp.datetime ∧
     exMerged55.mph = exMerged55noimp.mph ∧
     exMerged55.tt_sec = exMerged55noimp.tt_sec ∧
     exMerged55.hod = exMerged55noimp.hod ∧
     exMerged55.dow = exMerged55noimp.dow ∧
     exMerged55.tod = exMerged55noimp.tod ∧
     exMerged55.ttq1p = exMerged55noimp.ttq1p ∧
     exMerged55.ttq2p = exMerged55noimp.ttq2p ∧
     exMerged55.lottr = exMerged55noimp.lottr ∧
     exMerged55.trk_ttq1p = exMerged55noimp.trk_ttq1p ∧
     exMerged55.trk_ttq2p = exMerged55noimp.trk_ttq2p ∧
     exMerged55.trk_lottr = exMerged55noimp.trk_lottr ∧
     exMerged55.flag = exMerged55noimp.flag) ∧
    (exMerged55noimp.flag = 0 → exMerged55 = exMerged55noimp) :=
  (C10_imputation_frame [exP55] []).1.2 0 exMerged55noimp exMerged55
    (by decide) (by decide)

/-- C1: for every input row the Time Bucketer assigns exactly one `TOD` value,
by the fixed-precedence overwrite rules of main.py lines 61-65: `AM` iff
`5 < hour < 10` on a weekday, `MD` iff `9 < hour < 16` on a weekday, `PM` iff
`15 < hour < 20` on a weekday, `WE` iff `5 < hour < 20` on a weekend day, and
`EV` otherwise (including weekday hours 5 and 20 and all night hours); in
particular weekday hour 9 is `AM`, hour 10 is `MD`, hour 16 is `PM`. -/
theorem C1_time_bucketer (hod dow : ℕ) (hh : hod ≤ 23) (hd1 : 1 ≤ dow) (hd7 : dow ≤ 7) :
    (todOf hod dow = TOD.AM ↔ (5 < hod ∧ hod < 10 ∧ 2 ≤ dow ∧ dow ≤ 6)) ∧
    (todOf hod dow = TOD.MD ↔ (9 < hod ∧ hod < 16 ∧ 2 ≤ dow ∧ dow ≤ 6)) ∧
    (todOf hod dow = TOD.PM ↔ (15 < hod ∧ hod < 20 ∧ 2 ≤ dow ∧ dow ≤ 6)) ∧
    (todOf hod dow = TOD.WE ↔ (5 < hod ∧ hod < 20 ∧ (dow = 1 ∨ dow = 7))) ∧
    (todOf hod dow = TOD.EV ↔
      ¬((5 < hod ∧ hod < 10 ∧ 2 ≤ dow ∧ dow ≤ 6) ∨
        (9 < hod ∧ hod < 16 ∧ 2 ≤ dow ∧ dow ≤ 6) ∨
        (15 < hod ∧ hod < 20 ∧ 2 ≤ dow ∧ dow ≤ 6) ∨
        (5 < hod ∧ hod < 20 ∧ (dow = 1 ∨ dow = 7)))) ∧
    todOf 9 2 = TOD.AM ∧ todOf 10 2 = TOD.MD ∧ todOf 16 2 = TOD.PM ∧
    todOf 5 2 = TOD.EV ∧ todOf 20 2 = TOD.EV := by
  interval_cases hod <;> interval_cases dow <;> decide

/-- Witness for `C1_time_bucketer` at `hod = 9`, `dow = 2`. -/
theorem C1_time_bucketer_witness :
    todOf 9 2 = TOD.AM ∧ todOf 10 2 = TOD.MD ∧ todOf 16 2 = TOD.PM ∧
    todOf 5 2 = TOD.EV ∧ todOf 20 2 = TOD.EV :=
  ((((((C1_time_bucketer 9 2 (by decide) (by decide) (by decide)).2).2).2).2).2)

/-- C3 counterexample: on the group `[10, 20]` with `q = 60` the code's
closest-observation percentile (main.py lines 76-77) selects `10`, while the
claimed rule "the rank closest to q·(n−1)/100 with standard rounding" selects
rank `round(0.6) = 1`, i.e. `20`. -/
theorem C3_counterexample :
    percentile_closest_observation [10, 20] 60 = some 10 ∧
    nearest_rank_spec [10, 20] 60 = some 20 ∧
    percentile_closest_observation [10, 20] 60 ≠ nearest_rank_spec [10, 20] 60 := by
  decide

/-- C3 (amended): the nearest-rank percentile is Hyndman-Fan method 3
(`closest_observation`), selecting 1-based rank `j = ⌊n·q/100 − 1/2⌋` when that
bound is exact and `j` is even, else `j + 1`; on `[10,10,10,10,20]` the
50th-percentile value equals `10` (0-based sorted index 1) and the
80th-percentile value equals `10` (0-based sorted index 3). -/
theorem C3_amended_closest_observation :
    closestObservationIndex 5 50 = 1 ∧ closestObservationIndex 5 80 = 3 ∧
    percentile_closest_observation [10, 10, 10, 10, 20] 50 = some 10 ∧
    percentile_closest_observation [10, 10, 10, 10, 20] 80 = some 10 := by
  decide

/-- C8: `add_lottr_to_dataset` fails with the validation error exactly when
`q1` or `q2` lies outside `[0,100]`; otherwise it returns the computed dataset
(so a rejected call produces no partial output); in particular `-1` and `101`
are rejected. -/
theorem C8_percentile_validation (data : List TodRow) (q1 q2 : ℤ) :
    (add_lottr_to_dataset data q1 q2 = .error "q1 and q2 must be between 0 and 100."
      ↔ (q1 < 0 ∨ 100 < q1 ∨ q2 < 0 ∨ 100 < q2)) ∧
    (0 ≤ q1 → q1 ≤ 100 → 0 ≤ q2 → q2 ≤ 100 →
      add_lottr_to_dataset data q1 q2 = .ok (add_lottr_core data q1 q2)) ∧
    add_lottr_to_dataset data (-1) q2 = .error "q1 and q2 must be between 0 and 100." ∧
    add_lottr_to_dataset data 101 q2 = .error "q1 and q2 must be between 0 and 100." ∧
    add_lottr_to_dataset data q1 (-1) = .error "q1 and q2 must be between 0 and 100." ∧
    add_lottr_to_dataset data q1 101 = .error "q1 and q2 must be between 0 and 100." := by
  refine ⟨?_, ?_, ?_, ?_, ?_, ?_⟩ <;>
    simp only [add_lottr_to_dataset] <;>
    [skip; skip; rfl; rfl; skip; skip] <;>
    first
      | (split_ifs with h
         · simp only [true_iff, iff_true, reduceCtorEq]
           omega
         · constructor
           · intro hc
             exact absurd hc (by simp)
           · intro hc
             exact absurd hc (by omega))
      | (intro h1 h2 h3 h4
         split_ifs with h
         · omega
         · rfl)
      | (split_ifs with h
         · rfl
         · omega)

/-- Witness for `C8_percentile_validation` at `q1 = 50`, `q2 = 80`. -/
theorem C8_percentile_validation_witness :
    add_lottr_to_dataset [] 50 80 = .ok (add_lottr_core [] 50 80) :=
  (C8_percentile_validation [] 50 80).2.1 (by decide) (by decide) (by decide) (by decide)

end Theorems

end NPMRDS
